import Mathlib

/-!
Verification development for the namespace-ownership and claims-exchange
subsystem of iam-client-lib.

The definitions below are a shallow embedding of the TypeScript sources:

* `src/iam.ts` — the `IAM` class: `validateOwnership`, `createOrganization`,
  `changeOrgOwnership`, `deleteOrganization`, `deleteApplication`,
  `getSubdomains`, `createClaimRequest`, `issueClaimRequest`,
  `rejectClaimRequest`, `subscribeToMessages`.
* `src/modules/signer/signer.service.ts` — `SignerService`: `signMessage`,
  `publicKeyAndIdentityToken`, the reconnection handler.

Effectful collaborators (ENS registry reads, the NATS connection, the cache
client, the wallet signer) are passed in as explicit function or flag
parameters, and side effects are rendered as returned data: a plan run is a
trace of registry actions, a claim dispatch is the list of published
(topic, payload) pairs or the mailbox submission.
-/

namespace IamClientLib

/-! Namespace types, from the `ENSNamespaceTypes` enum in `iam.ts`. -/

inductive ENSNamespaceTypes
  | Roles
  | Application
  | Organization
deriving DecidableEq, Repr

/-- String value of each enum member: Roles = "roles", Application = "apps",
Organization = "org", as declared in `iam.ts`. -/
def ENSNamespaceTypes.value : ENSNamespaceTypes → String
  | .Roles => "roles"
  | .Application => "apps"
  | .Organization => "org"

/-- Topic suffix `NATS_EXCHANGE_TOPIC = "claim.exchange"` from `iam.ts`. -/
def NATS_EXCHANGE_TOPIC : String := "claim.exchange"

/-- Dot-splitting of a path on character lists: splitting the empty list
gives one empty segment and every dot starts a new segment, matching the JS
`s.split(".")`. Structural recursion keeps concrete instances computable by
the kernel. -/
def splitOnDotChars : List Char → List String
  | [] => [""]
  | c :: cs =>
    let rest := splitOnDotChars cs
    if c = '.' then "" :: rest
    else (String.mk [c] ++ rest.headD "") :: rest.tail

/-- The JS `s.split(".")` used throughout `iam.ts` on namespace paths. -/
def splitOnDot (s : String) : List String :=
  splitOnDotChars s.toList

/-- Parent of a dot-separated path: drop the first label and rejoin, as in
the destructuring `const [, ...parentDomain] = namespace.split(".")` followed
by `parentDomain.join(".")` in `iam.ts`. -/
def parentDomain (ns : String) : String :=
  String.intercalate "." ((splitOnDot ns).tail)

/-- First label of a dot-separated path, as in
`const [label, ...rest] = namespace.split(".")`. -/
def firstLabel (ns : String) : String :=
  ((splitOnDot ns).headD "")

/-! Error taxonomy. Constructors keep the class or message of the throw
site in `iam.ts` / `signer.service.ts`; where the throw site uses a plain
`Error` with a message, the constructor carries that message. The constructor
`DependentChildrenError` models the plain
`Error("You are not able to ... organization with registered apps")` throws;
`NonConformingSignerError` models the
`Error(ERROR_MESSAGES.NON_EIP191_SIGNER)` throw. -/

inductive IamError
  | MethodNotAvailableInNodeEnvError (methodName : String)
  | ChangeOwnershipNotPossibleError (ns : String) (notOwnedNamespaces : List String)
  | DeletingNamespaceNotPossibleError (ns : String) (notOwnedNamespaces : List String)
  | DependentChildrenError (message : String)
  | NonConformingSignerError
  | NATSConnectionNotEstablishedError
  | UserNotLoggedInError
  | TokenNotGeneratedError
deriving DecidableEq, Repr

/-! Ownership validation, from `IAM.validateOwnership` (iam.ts 1108-1149).
The ENS owner lookup `getOwner` and the connected address `_address` are
explicit parameters. The per-path concurrent lookup maps each path to
itself or `null` (`owner !== address ? namespace : null`), and the final
`.filter(Boolean)` keeps only the truthy entries: it drops the `null`
entries and also any empty-string path, since `""` is falsy in JS. -/

/-- JS `Array.filter(Boolean)` on an array of strings and nulls: keeps
exactly the truthy entries, dropping `null` (`none`) and the falsy empty
string. -/
def filterBoolean (entries : List (Option String)) : List String :=
  entries.filterMap (fun e => e.bind (fun s => if s = "" then none else some s))

/-- The map-then-filter used by `validateOwnership` for app and org types:
mark the paths whose resolved owner differs from the address, then keep the
truthy marks. -/
def notOwnedOf (getOwner : String → String) (address : String)
    (namespaces : List String) : List String :=
  filterBoolean
    (namespaces.map (fun n => if getOwner n ≠ address then some n else none))

/-- Shallow embedding of `IAM.validateOwnership`. For a role it checks only
the parent domain; for an application the list
`[namespace, appsNamespace, appRolesNamespace]`; for an organization the list
`[iamNamespace, rolesNamespace, appsNamespace, namespace]`, exactly as built
in the source. -/
def validateOwnership (getOwner : String → String) (address : String)
    (ns : String) (type : ENSNamespaceTypes) : List String :=
  match type with
  | .Roles =>
    let parent := parentDomain ns
    if getOwner parent = address then [] else [parent]
  | .Application =>
    let appsNamespace := parentDomain ns
    let appRolesNamespace := ENSNamespaceTypes.Roles.value ++ "." ++ ns
    notOwnedOf getOwner address [ns, appsNamespace, appRolesNamespace]
  | .Organization =>
    let iamNamespace := parentDomain ns
    let rolesNamespace := ENSNamespaceTypes.Roles.value ++ "." ++ ns
    let appsNamespace := ENSNamespaceTypes.Application.value ++ "." ++ ns
    notOwnedOf getOwner address [iamNamespace, rolesNamespace, appsNamespace, ns]

/-- Validation set of a path, stated per node type as in the specification:
role nodes check the parent only, applications check the node, its parent and
the roles anchor, organizations additionally check the apps anchor. -/
def validationSet (ns : String) : ENSNamespaceTypes → List String
  | .Roles => [parentDomain ns]
  | .Application => [ns, parentDomain ns, "roles" ++ "." ++ ns]
  | .Organization =>
    [ns, parentDomain ns, "roles" ++ "." ++ ns, "apps" ++ "." ++ ns]

lemma notOwnedOf_cons (getOwner : String → String) (address a : String)
    (t : List String) :
    notOwnedOf getOwner address (a :: t) =
      if getOwner a ≠ address ∧ a ≠ "" then
        a :: notOwnedOf getOwner address t
      else notOwnedOf getOwner address t := by
  by_cases h : getOwner a = address
  · simp [notOwnedOf, filterBoolean, h]
  · by_cases ha : a = ""
    · simp [notOwnedOf, filterBoolean, h, ha]
    · simp [notOwnedOf, filterBoolean, h, ha]

lemma notOwnedOf_eq_nil (getOwner : String → String) (address : String)
    (l : List String) :
    notOwnedOf getOwner address l = [] ↔
      ∀ p ∈ l, p ≠ "" → getOwner p = address := by
  induction l with
  | nil => simp [notOwnedOf, filterBoolean]
  | cons a t ih =>
    rw [notOwnedOf_cons]
    by_cases h : getOwner a = address
    · simp [h, ih]
    · by_cases ha : a = ""
      · simp [h, ha, ih]
      · simp [h, ha]

lemma mem_notOwnedOf (getOwner : String → String) (address : String)
    (l : List String) (p : String) (hp : p ∈ l)
    (hne : getOwner p ≠ address) (hps : p ≠ "") :
    p ∈ notOwnedOf getOwner address l := by
  simp only [notOwnedOf, filterBoolean, List.filterMap_map,
    List.mem_filterMap]
  exact ⟨p, hp, by simp [hne, hps]⟩

/-- Owner lookup double granting every path to the address used in witness
statements. -/
def ownerA : String → String := fun _ => "0xA"

/-- Owner lookup double granting only the path "iam.ewc" to the address
"0xA"; everything else resolves to "0xOther". -/
def ownerOnlyParent : String → String :=
  fun n => if n = "iam.ewc" then "0xA" else "0xOther"

/-- Owner lookup double under which only the ENS root path (the empty
string) belongs to someone other than "0xA". -/
def ownerExceptRoot : String → String :=
  fun n => if n = "" then "0xRoot" else "0xA"

/-- Counterexample to claim C1 as stated: for the single-label organization
"ewc" the parent path in the validation set is the empty string; with the
root owned by someone else, `validateOwnership` still returns the empty
list, because `filter(Boolean)` drops the falsy empty-string path — so an
unowned validation-set path neither blocks authorization nor appears in the
returned list. -/
theorem validateOwnership_drops_empty_parent :
    validateOwnership ownerExceptRoot "0xA" "ewc" .Organization = [] ∧
    parentDomain "ewc" ∈ validationSet "ewc" .Organization ∧
    ownerExceptRoot (parentDomain "ewc") ≠ "0xA" ∧
    parentDomain "ewc" ∉
      validateOwnership ownerExceptRoot "0xA" "ewc" .Organization := by
  refine ⟨by decide, by decide, by decide, by decide⟩

/-- Claim C1 as amended. For every namespace path and asserted owner (the
connected address), `validateOwnership` returns the empty list iff every
path in the type-specific validation set that survives the truthiness
filter resolves to that owner, and every such path with a different owner
appears in the returned list. For a role the sole parent path is kept even
when it is the empty string; for applications and organizations
`filter(Boolean)` drops an empty-string path (the parent of a single-label
namespace), which then neither blocks authorization nor is reported. -/
theorem validateOwnership_empty_iff_all_owned
    (getOwner : String → String) (address : String)
    (ns : String) (type : ENSNamespaceTypes) :
    (validateOwnership getOwner address ns type = [] ↔
      ∀ p ∈ validationSet ns type, (type = .Roles ∨ p ≠ "") →
        getOwner p = address) ∧
    (∀ p ∈ validationSet ns type, getOwner p ≠ address →
      (type = .Roles ∨ p ≠ "") →
      p ∈ validateOwnership getOwner address ns type) := by
  cases type with
  | Roles =>
    constructor
    · by_cases h : getOwner (parentDomain ns) = address <;>
        simp [validateOwnership, validationSet, h]
    · intro p hp hne hg
      simp only [validationSet, List.mem_singleton] at hp
      subst hp
      simp [validateOwnership, hne]
  | Application =>
    have hlist : ∀ p, p ∈ validationSet ns .Application ↔
        p ∈ [ns, parentDomain ns,
             ENSNamespaceTypes.Roles.value ++ "." ++ ns] := by
      intro p
      simp [validationSet, ENSNamespaceTypes.value]
    constructor
    · rw [show validateOwnership getOwner address ns .Application =
          notOwnedOf getOwner address
            [ns, parentDomain ns, ENSNamespaceTypes.Roles.value ++ "." ++ ns]
          from rfl,
        notOwnedOf_eq_nil]
      constructor
      · intro h p hp hg
        exact h p ((hlist p).1 hp) (hg.resolve_left (by decide))
      · intro h p hp hps
        exact h p ((hlist p).2 hp) (.inr hps)
    · intro p hp hne hg
      exact mem_notOwnedOf _ _ _ p ((hlist p).1 hp) hne
        (hg.resolve_left (by decide))
  | Organization =>
    have hlist : ∀ p, p ∈ validationSet ns .Organization ↔
        p ∈ [parentDomain ns, ENSNamespaceTypes.Roles.value ++ "." ++ ns,
             ENSNamespaceTypes.Application.value ++ "." ++ ns, ns] := by
      intro p
      simp [validationSet, ENSNamespaceTypes.value]
      tauto
    constructor
    · rw [show validateOwnership getOwner address ns .Organization =
          notOwnedOf getOwner address
            [parentDomain ns, ENSNamespaceTypes.Roles.value ++ "." ++ ns,
             ENSNamespaceTypes.Application.value ++ "." ++ ns, ns]
          from rfl,
        notOwnedOf_eq_nil]
      constructor
      · intro h p hp hg
        exact h p ((hlist p).1 hp) (hg.resolve_left (by decide))
      · intro h p hp hps
        exact h p ((hlist p).2 hp) (.inr hps)
    · intro p hp hne hg
      exact mem_notOwnedOf _ _ _ p ((hlist p).1 hp) hne
        (hg.resolve_left (by decide))

/-- Witness for claim C1 (amended): for the organization "energyweb.iam.ewc"
with only the parent owned, the nonempty roles anchor path is reported as
not owned. -/
theorem validateOwnership_empty_iff_all_owned_witness :
    "roles" ++ "." ++ "energyweb.iam.ewc" ∈
      validateOwnership ownerOnlyParent "0xA" "energyweb.iam.ewc"
        .Organization :=
  (validateOwnership_empty_iff_all_owned ownerOnlyParent "0xA"
      "energyweb.iam.ewc" .Organization).2
    ("roles" ++ "." ++ "energyweb.iam.ewc") (by simp [validationSet])
    (by decide) (.inr (by decide))

/-! Workflow planner. A step in the source is a record
`{ next: () => Promise<void>, info: string }`; the closure `next` is rendered
as the registry action it performs. Executing a plan runs the steps strictly
sequentially, so a run is rendered as the list of actions in execution
order. -/

/-- Primitive registry mutations invoked by the step closures in `iam.ts`. -/
inductive RegistryAction
  | createSubdomain (subdomain : String) (domain : String)
  | setDomainName (domain : String)
  | setRoleDefinition (domain : String) (data : String)
  | changeSubdomainOwner (label : String) (ns : String) (newOwner : String)
  | deleteSubdomain (ns : String)
deriving DecidableEq, Repr

/-- One workflow step: the registry action of the `next` closure plus the
human-readable `info` text. -/
structure Step where
  action : RegistryAction
  info : String
deriving DecidableEq, Repr

/-- Result of running one of the workflow methods: the step list handed back
to the caller (nonempty only in dry mode) and the trace of actions executed,
in order. The source returns the step array when `returnSteps` is set and
otherwise awaits each step in a `for` loop and returns `[]`. -/
structure RunResult where
  returnedSteps : List Step
  executed : List RegistryAction
deriving DecidableEq, Repr

/-- Trace of executed actions of a fallible run; an error means nothing ran. -/
def executedOf : Except IamError RunResult → List RegistryAction
  | .ok r => r.executed
  | .error _ => []

/-- The check `apps && apps.length > 0` guarding organization deletion and
ownership transfer; `none` models an `undefined` enumeration result. -/
def hasRegisteredApps : Option (List String) → Bool
  | none => false
  | some l => decide (0 < l.length)

/-- The ordered creation plan built by `IAM.createOrganization`
(iam.ts 481-536): seven steps over `newDomain = orgName.namespace`,
`rolesDomain = roles.newDomain` and `appsDomain = apps.newDomain`. -/
def createOrganizationSteps (orgName ns : String) (data : String) : List Step :=
  let newDomain := orgName ++ "." ++ ns
  let rolesDomain := ENSNamespaceTypes.Roles.value ++ "." ++ newDomain
  let appsDomain := ENSNamespaceTypes.Application.value ++ "." ++ newDomain
  [ { action := .createSubdomain orgName ns,
      info := "Create organization subdomain" },
    { action := .setDomainName newDomain,
      info := "Register reverse name for organization subdomain" },
    { action := .setRoleDefinition newDomain data,
      info := "Set definition for organization" },
    { action := .createSubdomain ENSNamespaceTypes.Roles.value newDomain,
      info := "Create roles subdomain for organization" },
    { action := .setDomainName rolesDomain,
      info := "Register reverse name for roles subdomain" },
    { action := .createSubdomain ENSNamespaceTypes.Application.value newDomain,
      info := "Create app subdomain for organization" },
    { action := .setDomainName appsDomain,
      info := "Register reverse name for app subdomain" } ]

/-- Shallow embedding of `IAM.createOrganization`: fails outside the browser
environment, returns the step list unexecuted in dry mode, and otherwise
executes the steps strictly sequentially and returns the empty list. -/
def createOrganization (runningInBrowser : Bool) (orgName ns : String)
    (data : String) (returnSteps : Bool) : Except IamError RunResult :=
  if !runningInBrowser then
    .error (.MethodNotAvailableInNodeEnvError "createOrganization")
  else
    let steps := createOrganizationSteps orgName ns data
    if returnSteps then .ok ⟨steps, []⟩
    else .ok ⟨[], steps.map Step.action⟩

/-- The step list built by `IAM.changeOrgOwnership` (iam.ts 644-709): the
top-level node, the apps anchor, the roles anchor, then one step per
discovered role child, with the whole list reversed at the end as in
`steps.reverse()`. -/
def changeOrgOwnershipSteps (ns newOwner : String)
    (roles : List String) : List Step :=
  let steps : List Step :=
    [ { action := .changeSubdomainOwner (firstLabel ns) (parentDomain ns) newOwner,
        info := "Changing ownership of " ++ ns },
      { action := .changeSubdomainOwner ENSNamespaceTypes.Application.value ns newOwner,
        info := "Changing ownership of " ++
          (ENSNamespaceTypes.Application.value ++ "." ++ ns) },
      { action := .changeSubdomainOwner ENSNamespaceTypes.Roles.value ns newOwner,
        info := "Changing ownership of " ++
          (ENSNamespaceTypes.Roles.value ++ "." ++ ns) } ] ++
    roles.map (fun role =>
      { action := .changeSubdomainOwner role
          (ENSNamespaceTypes.Roles.value ++ "." ++ ns) newOwner,
        info := "Changing ownership of " ++
          (role ++ "." ++ ENSNamespaceTypes.Roles.value ++ "." ++ ns) })
  steps.reverse

/-- Shallow embedding of `IAM.changeOrgOwnership`. The ownership validation,
the child-application enumeration (`apps`, `undefined` rendered as `none`)
and the role-child enumeration (`roles`, normalized with `getD []` as in
`|| []`) are passed in as the results of the corresponding reads. -/
def changeOrgOwnership (getOwner : String → String) (address : String)
    (apps : Option (List String)) (roles : Option (List String))
    (ns newOwner : String) (returnSteps : Bool) : Except IamError RunResult :=
  let notOwnedNamespaces := validateOwnership getOwner address ns .Organization
  if 0 < notOwnedNamespaces.length then
    .error (.ChangeOwnershipNotPossibleError ns notOwnedNamespaces)
  else if hasRegisteredApps apps then
    .error (.DependentChildrenError
      "You are not able to change ownership of organization with registered apps")
  else
    let steps := changeOrgOwnershipSteps ns newOwner (roles.getD [])
    if returnSteps then .ok ⟨steps, []⟩
    else .ok ⟨[], steps.map Step.action⟩

/-- The step list built by `IAM.deleteOrganization` (iam.ts 794-852): delete
the top-level node, the apps anchor, the roles anchor, then one step per
discovered role child, with the whole list reversed at the end. -/
def deleteOrganizationSteps (ns : String) (roles : List String) : List Step :=
  let steps : List Step :=
    [ { action := .deleteSubdomain ns,
        info := "Deleting " ++ ns },
      { action := .deleteSubdomain (ENSNamespaceTypes.Application.value ++ "." ++ ns),
        info := "Deleting " ++ (ENSNamespaceTypes.Application.value ++ "." ++ ns) },
      { action := .deleteSubdomain (ENSNamespaceTypes.Roles.value ++ "." ++ ns),
        info := "Deleting " ++ (ENSNamespaceTypes.Roles.value ++ "." ++ ns) } ] ++
    roles.map (fun role =>
      { action := .deleteSubdomain
          (role ++ "." ++ ENSNamespaceTypes.Roles.value ++ "." ++ ns),
        info := "Deleting " ++
          (role ++ "." ++ ENSNamespaceTypes.Roles.value ++ "." ++ ns) })
  steps.reverse

/-- Shallow embedding of `IAM.deleteOrganization`, collaborator reads passed
in as for `changeOrgOwnership`. -/
def deleteOrganization (getOwner : String → String) (address : String)
    (apps : Option (List String)) (roles : Option (List String))
    (ns : String) (returnSteps : Bool) : Except IamError RunResult :=
  let notOwnedNamespaces := validateOwnership getOwner address ns .Organization
  if 0 < notOwnedNamespaces.length then
    .error (.DeletingNamespaceNotPossibleError ns notOwnedNamespaces)
  else if hasRegisteredApps apps then
    .error (.DependentChildrenError
      "You are not able to remove organization with registered apps")
  else
    let steps := deleteOrganizationSteps ns (roles.getD [])
    if returnSteps then .ok ⟨steps, []⟩
    else .ok ⟨[], steps.map Step.action⟩

/-- The step list built by `IAM.deleteApplication` (iam.ts 860-904): the
top-level node and the roles anchor, then the role children, reversed. -/
def deleteApplicationSteps (ns : String) (roles : List String) : List Step :=
  let steps : List Step :=
    [ { action := .deleteSubdomain ns,
        info := "Deleting " ++ ns },
      { action := .deleteSubdomain (ENSNamespaceTypes.Roles.value ++ "." ++ ns),
        info := "Deleting " ++ (ENSNamespaceTypes.Roles.value ++ "." ++ ns) } ] ++
    roles.map (fun role =>
      { action := .deleteSubdomain
          (role ++ "." ++ ENSNamespaceTypes.Roles.value ++ "." ++ ns),
        info := "Deleting " ++
          (role ++ "." ++ ENSNamespaceTypes.Roles.value ++ "." ++ ns) })
  steps.reverse

/-- Shallow embedding of `IAM.deleteApplication`. Note the source performs no
child-application check for applications. -/
def deleteApplication (getOwner : String → String) (address : String)
    (roles : Option (List String))
    (ns : String) (returnSteps : Bool) : Except IamError RunResult :=
  let notOwnedNamespaces := validateOwnership getOwner address ns .Application
  if 0 < notOwnedNamespaces.length then
    .error (.DeletingNamespaceNotPossibleError ns notOwnedNamespaces)
  else
    let steps := deleteApplicationSteps ns (roles.getD [])
    if returnSteps then .ok ⟨steps, []⟩
    else .ok ⟨[], steps.map Step.action⟩

/-- Claim C2. The organization creation plan is exactly seven steps in order
(create org subdomain, set org name, set org definition, create roles
subdomain, set roles name, create apps subdomain, set apps name); in dry mode
the ordered list is returned with nothing executed, otherwise the steps are
executed sequentially in exactly that order. -/
theorem createOrganization_plan_order (orgName ns data : String) :
    (createOrganizationSteps orgName ns data).map Step.action =
      [ .createSubdomain orgName ns,
        .setDomainName (orgName ++ "." ++ ns),
        .setRoleDefinition (orgName ++ "." ++ ns) data,
        .createSubdomain "roles" (orgName ++ "." ++ ns),
        .setDomainName ("roles" ++ "." ++ (orgName ++ "." ++ ns)),
        .createSubdomain "apps" (orgName ++ "." ++ ns),
        .setDomainName ("apps" ++ "." ++ (orgName ++ "." ++ ns)) ] ∧
    (createOrganizationSteps orgName ns data).length = 7 ∧
    createOrganization true orgName ns data true =
      .ok ⟨createOrganizationSteps orgName ns data, []⟩ ∧
    createOrganization true orgName ns data false =
      .ok ⟨[], (createOrganizationSteps orgName ns data).map Step.action⟩ := by
  refine ⟨rfl, rfl, rfl, rfl⟩

/-- Claim C3. For organization deletion and ownership transfer the plan is
built top-down (top-level node, apps anchor, roles anchor, each discovered
role child) and reversed in full before being returned or executed, so the
final order is: role children in reverse discovery order, the roles anchor,
the apps anchor, and the top-level node last; in dry mode that reversed list
is returned and otherwise it is executed in that exact order. -/
theorem deleteOrg_changeOrgOwnership_reversed_order
    (getOwner : String → String) (address ns newOwner : String)
    (roles : List String)
    (hOwned : validateOwnership getOwner address ns .Organization = []) :
    deleteOrganizationSteps ns roles =
      (roles.map (fun role =>
        { action := .deleteSubdomain
            (role ++ "." ++ "roles" ++ "." ++ ns),
          info := "Deleting " ++ (role ++ "." ++ "roles" ++ "." ++ ns) :
          Step })).reverse ++
      [ { action := .deleteSubdomain ("roles" ++ "." ++ ns),
          info := "Deleting " ++ ("roles" ++ "." ++ ns) },
        { action := .deleteSubdomain ("apps" ++ "." ++ ns),
          info := "Deleting " ++ ("apps" ++ "." ++ ns) },
        { action := .deleteSubdomain ns,
          info := "Deleting " ++ ns } ] ∧
    changeOrgOwnershipSteps ns newOwner roles =
      (roles.map (fun role =>
        { action := .changeSubdomainOwner role ("roles" ++ "." ++ ns) newOwner,
          info := "Changing ownership of " ++
            (role ++ "." ++ "roles" ++ "." ++ ns) : Step })).reverse ++
      [ { action := .changeSubdomainOwner "roles" ns newOwner,
          info := "Changing ownership of " ++ ("roles" ++ "." ++ ns) },
        { action := .changeSubdomainOwner "apps" ns newOwner,
          info := "Changing ownership of " ++ ("apps" ++ "." ++ ns) },
        { action := .changeSubdomainOwner (firstLabel ns) (parentDomain ns) newOwner,
          info := "Changing ownership of " ++ ns } ] ∧
    deleteOrganization getOwner address none (some roles) ns true =
      .ok ⟨deleteOrganizationSteps ns roles, []⟩ ∧
    deleteOrganization getOwner address none (some roles) ns false =
      .ok ⟨[], (deleteOrganizationSteps ns roles).map Step.action⟩ ∧
    changeOrgOwnership getOwner address none (some roles) ns newOwner true =
      .ok ⟨changeOrgOwnershipSteps ns newOwner roles, []⟩ ∧
    changeOrgOwnership getOwner address none (some roles) ns newOwner false =
      .ok ⟨[], (changeOrgOwnershipSteps ns newOwner roles).map Step.action⟩ := by
  refine ⟨?_, ?_, ?_, ?_, ?_, ?_⟩
  · simp [deleteOrganizationSteps, ENSNamespaceTypes.value, List.reverse_append]
  · simp [changeOrgOwnershipSteps, ENSNamespaceTypes.value, List.reverse_append]
  · simp [deleteOrganization, hOwned, hasRegisteredApps]
  · simp [deleteOrganization, hOwned, hasRegisteredApps]
  · simp [changeOrgOwnership, hOwned, hasRegisteredApps]
  · simp [changeOrgOwnership, hOwned, hasRegisteredApps]

/-- Witness for claim C3: with every path owned by the caller, the dry-run
deletion plan of "energyweb.iam.ewc" with discovered roles r1, r2 is the
reversed step list. -/
theorem deleteOrg_changeOrgOwnership_reversed_order_witness :
    deleteOrganization ownerA "0xA" none (some ["r1", "r2"])
      "energyweb.iam.ewc" true =
      .ok ⟨deleteOrganizationSteps "energyweb.iam.ewc" ["r1", "r2"], []⟩ :=
  (deleteOrg_changeOrgOwnership_reversed_order ownerA "0xA"
    "energyweb.iam.ewc" "0xB" ["r1", "r2"] (by decide)).2.2.1

/-- Claim C4. An organization deletion or ownership transfer whose
child-application enumeration yields one or more applications fails with the
dependent-children error before the step list is built, so no mutation step
executes. (The source performs this check only after ownership validation
passes, hence the ownership hypothesis; for applications no child-application
enumeration exists, so the claim is vacuous there.) -/
theorem dependent_children_blocks_org_mutation
    (getOwner : String → String) (address ns newOwner : String)
    (apps : Option (List String)) (roles : Option (List String))
    (returnSteps : Bool)
    (hOwned : validateOwnership getOwner address ns .Organization = [])
    (hApps : hasRegisteredApps apps = true) :
    deleteOrganization getOwner address apps roles ns returnSteps =
      .error (.DependentChildrenError
        "You are not able to remove organization with registered apps") ∧
    executedOf (deleteOrganization getOwner address apps roles ns returnSteps)
      = [] ∧
    changeOrgOwnership getOwner address apps roles ns newOwner returnSteps =
      .error (.DependentChildrenError
        "You are not able to change ownership of organization with registered apps") ∧
    executedOf
      (changeOrgOwnership getOwner address apps roles ns newOwner returnSteps)
      = [] := by
  refine ⟨?_, ?_, ?_, ?_⟩ <;>
    simp [deleteOrganization, changeOrgOwnership, executedOf, hOwned, hApps]

/-- Witness for claim C4: deleting "energyweb.iam.ewc" with one registered
app aborts with the dependent-children error and executes nothing. -/
theorem dependent_children_blocks_org_mutation_witness :
    deleteOrganization ownerA "0xA" (some ["app1"]) none
      "energyweb.iam.ewc" false =
      .error (.DependentChildrenError
        "You are not able to remove organization with registered apps") :=
  (dependent_children_blocks_org_mutation ownerA "0xA" "energyweb.iam.ewc"
    "0xB" (some ["app1"]) none false (by decide) (by decide)).1

/-! Message signing, from `SignerService.signMessage`
(signer.service.ts 148-158). The wallet backend, the prefixed-hash function
and the address recovery of the ethers library are abstract parameters;
messages are byte lists. -/

/-- Abstract signing backend: `signRaw` is the wallet `signer.signMessage`,
`hashMessage` the EIP-191 prefixed hash, `verifyMessage m s` the ethers
recovery of the signing address of `s` against message `m`, and `address`
the known signer address `_address`. -/
structure SignerBackend where
  signRaw : List Nat → String
  hashMessage : List Nat → List Nat
  verifyMessage : List Nat → String → String
  address : String

/-- Shallow embedding of `SignerService.signMessage`: request one signature
over the raw message and one over the prefixed digest
`arrayify(hashMessage(message))`, return the first whose recovered address
equals the known address, otherwise fail with the non-conforming-signer
error. -/
def signMessage (b : SignerBackend) (message : List Nat) :
    Except IamError String :=
  let unPrefixedMsgSig := b.signRaw message
  let prefixedMsgSig := b.signRaw (b.hashMessage message)
  if b.address = b.verifyMessage message unPrefixedMsgSig then
    .ok unPrefixedMsgSig
  else if b.address = b.verifyMessage message prefixedMsgSig then
    .ok prefixedMsgSig
  else
    .error .NonConformingSignerError

/-- Claim C5. `signMessage` produces two candidate signatures, one over the
raw message and one over the prefixed digest, returns whichever candidate
recovers to the known signer address, and fails with the
non-conforming-signer error exactly when neither candidate does; the error is
the immediate result of the call, with no retry. -/
theorem signMessage_candidates (b : SignerBackend) (message : List Nat) :
    (b.verifyMessage message (b.signRaw message) = b.address →
      signMessage b message = .ok (b.signRaw message)) ∧
    (b.verifyMessage message (b.signRaw message) ≠ b.address →
      b.verifyMessage message (b.signRaw (b.hashMessage message)) = b.address →
      signMessage b message = .ok (b.signRaw (b.hashMessage message))) ∧
    (b.verifyMessage message (b.signRaw message) ≠ b.address →
      b.verifyMessage message (b.signRaw (b.hashMessage message)) ≠ b.address →
      signMessage b message = .error .NonConformingSignerError) := by
  refine ⟨?_, ?_, ?_⟩
  · intro h1
    simp [signMessage, h1.symm]
  · intro h1 h2
    have h1' : b.address ≠ b.verifyMessage message (b.signRaw message) :=
      fun hc => h1 hc.symm
    simp only [signMessage]
    rw [if_neg h1', if_pos h2.symm]
  · intro h1 h2
    have h1' : b.address ≠ b.verifyMessage message (b.signRaw message) :=
      fun hc => h1 hc.symm
    have h2' : b.address ≠
        b.verifyMessage message (b.signRaw (b.hashMessage message)) :=
      fun hc => h2 hc.symm
    simp [signMessage, h1', h2']

/-- Signing backend double whose recovery always reports an address distinct
from the known signer address, as in the non-conforming test double of the
specification. -/
def impostorBackend : SignerBackend :=
  { signRaw := fun m => "sig" ++ toString m.length,
    hashMessage := fun m => 0 :: m,
    verifyMessage := fun _ _ => "0xImpostor",
    address := "0xSigner" }

/-- Witness for claim C5: a backend recovering to a different address on both
candidates makes `signMessage` fail with the non-conforming-signer error. -/
theorem signMessage_candidates_witness :
    signMessage impostorBackend [1, 2, 3] = .error .NonConformingSignerError :=
  (signMessage_candidates impostorBackend [1, 2, 3]).2.2 (by decide) (by decide)

/-! Claims exchange, from `IAM.createClaimRequest`, `IAM.issueClaimRequest`,
`IAM.rejectClaimRequest` and `IAM.subscribeToMessages` (iam.ts 1153-1262).
The NATS connection and the cache client are rendered as configuration
flags; a dispatch result is either the list of published (topic, payload)
pairs or the mailbox submission keyed by DID. -/

/-- Payload of `IClaimRequest` in `iam.ts`. -/
structure IClaimRequest where
  id : String
  requester : String
  claimIssuer : List String
  token : String
deriving DecidableEq, Repr

/-- Payload of `IClaimIssuance` in `iam.ts`. -/
structure IClaimIssuance where
  id : String
  requester : String
  claimIssuer : List String
  issuedToken : String
  acceptedBy : String
deriving DecidableEq, Repr

/-- Payload of `IClaimRejection` in `iam.ts`. -/
structure IClaimRejection where
  id : String
  requester : String
  claimIssuer : List String
  isRejected : Bool
deriving DecidableEq, Repr

/-- Outcome of one claim-message dispatch: published to push topics, or
submitted to the store-and-forward mailbox of a DID. -/
inductive ClaimDispatch (α : Type)
  | published (messages : List (String × α))
  | mailboxed (did : String) (message : α)
deriving DecidableEq, Repr

/-- Default subscription topic of `IAM.subscribeToMessages`:
`did.claim.exchange` for the connected identity. -/
def subscribeToMessagesDefaultTopic (did : String) : String :=
  did ++ "." ++ NATS_EXCHANGE_TOPIC

/-- Shallow embedding of `IAM.createClaimRequest`. `did` is the connected
identity (`none` when not logged in), `token` the created claim token
(`none` when generation failed), `newId` the fresh request id. With a NATS
connection the payload goes to every issuer topic; otherwise with a cache
client it goes to the mailbox; otherwise the call fails. -/
def createClaimRequest (natsConnection cacheClient : Bool)
    (did : Option String) (issuer : List String) (token : Option String)
    (newId : String) : Except IamError (ClaimDispatch IClaimRequest) :=
  match did with
  | none => .error .UserNotLoggedInError
  | some did =>
    match token with
    | none => .error .TokenNotGeneratedError
    | some token =>
      let message : IClaimRequest :=
        { id := newId, token := token, claimIssuer := issuer, requester := did }
      if !natsConnection then
        if cacheClient then .ok (.mailboxed did message)
        else .error .NATSConnectionNotEstablishedError
      else
        .ok (.published (issuer.map (fun issuerDID =>
          (issuerDID ++ "." ++ NATS_EXCHANGE_TOPIC, message))))

/-- Shallow embedding of `IAM.issueClaimRequest`. `did` is the connected
issuer identity, `issuedToken` the result of issuing the public claim. -/
def issueClaimRequest (natsConnection cacheClient : Bool)
    (did : Option String) (requesterDID : String)
    (issuedToken : Option String) (id : String) :
    Except IamError (ClaimDispatch IClaimIssuance) :=
  match did with
  | none => .error .UserNotLoggedInError
  | some did =>
    match issuedToken with
    | none => .error .TokenNotGeneratedError
    | some issuedToken =>
      let preparedData : IClaimIssuance :=
        { id := id, issuedToken := issuedToken, requester := requesterDID,
          claimIssuer := [did], acceptedBy := did }
      if !natsConnection then
        if cacheClient then .ok (.mailboxed did preparedData)
        else .error .NATSConnectionNotEstablishedError
      else
        .ok (.published
          [(requesterDID ++ "." ++ NATS_EXCHANGE_TOPIC, preparedData)])

/-- Shallow embedding of `IAM.rejectClaimRequest`. -/
def rejectClaimRequest (natsConnection cacheClient : Bool)
    (did : Option String) (requesterDID : String) (id : String) :
    Except IamError (ClaimDispatch IClaimRejection) :=
  match did with
  | none => .error .UserNotLoggedInError
  | some did =>
    let preparedData : IClaimRejection :=
      { id := id, requester := requesterDID,
        claimIssuer := [did], isRejected := true }
    if !natsConnection then
      if cacheClient then .ok (.mailboxed did preparedData)
      else .error .NATSConnectionNotEstablishedError
    else
      .ok (.published
        [(requesterDID ++ "." ++ NATS_EXCHANGE_TOPIC, preparedData)])

/-- Claim C6. Every claim request, issuance and rejection dispatch has
exactly one of three outcomes, decided in this order: with the push
transport configured the encoded payload is published to the recipient
topics; otherwise with the store-and-forward client configured it is
submitted to the mailbox; otherwise the call fails with the
transport-not-configured error. The three right-hand sides are distinct
constructors, so exactly one outcome occurs per dispatch, and the failure is
the immediate result, not retried. -/
theorem claim_dispatch_transport_fallback (cacheClient : Bool)
    (d requesterDID token issuedToken newId id : String)
    (issuer : List String) :
    (createClaimRequest true cacheClient (some d) issuer (some token) newId =
      .ok (.published (issuer.map (fun issuerDID =>
        (issuerDID ++ "." ++ NATS_EXCHANGE_TOPIC,
         { id := newId, token := token, claimIssuer := issuer,
           requester := d }))))) ∧
    (createClaimRequest false true (some d) issuer (some token) newId =
      .ok (.mailboxed d
        { id := newId, token := token, claimIssuer := issuer,
          requester := d })) ∧
    (createClaimRequest false false (some d) issuer (some token) newId =
      .error .NATSConnectionNotEstablishedError) ∧
    (issueClaimRequest true cacheClient (some d) requesterDID
        (some issuedToken) id =
      .ok (.published [(requesterDID ++ "." ++ NATS_EXCHANGE_TOPIC,
        { id := id, issuedToken := issuedToken, requester := requesterDID,
          claimIssuer := [d], acceptedBy := d })])) ∧
    (issueClaimRequest false true (some d) requesterDID (some issuedToken) id =
      .ok (.mailboxed d
        { id := id, issuedToken := issuedToken, requester := requesterDID,
          claimIssuer := [d], acceptedBy := d })) ∧
    (issueClaimRequest false false (some d) requesterDID (some issuedToken) id =
      .error .NATSConnectionNotEstablishedError) ∧
    (rejectClaimRequest true cacheClient (some d) requesterDID id =
      .ok (.published [(requesterDID ++ "." ++ NATS_EXCHANGE_TOPIC,
        { id := id, requester := requesterDID, claimIssuer := [d],
          isRejected := true })])) ∧
    (rejectClaimRequest false true (some d) requesterDID id =
      .ok (.mailboxed d
        { id := id, requester := requesterDID, claimIssuer := [d],
          isRejected := true })) ∧
    (rejectClaimRequest false false (some d) requesterDID id =
      .error .NATSConnectionNotEstablishedError) := by
  refine ⟨rfl, rfl, rfl, rfl, rfl, rfl, rfl, rfl, rfl⟩

/-- Claim C7. An issuance built for request id R is addressed to the topic
that the original requester subscribes to by default and carries the same
id R; a rejection for id R carries `isRejected = true` and the same id R on
the same topic; in the mailbox fallback both payloads still carry id R and
the original requester DID. -/
theorem claim_round_trip_same_id (cacheClient : Bool)
    (d requesterDID issuedToken R : String) :
    (issueClaimRequest true cacheClient (some d) requesterDID
        (some issuedToken) R =
      .ok (.published [(subscribeToMessagesDefaultTopic requesterDID,
        { id := R, issuedToken := issuedToken, requester := requesterDID,
          claimIssuer := [d], acceptedBy := d })])) ∧
    (issueClaimRequest false true (some d) requesterDID (some issuedToken) R =
      .ok (.mailboxed d
        { id := R, issuedToken := issuedToken, requester := requesterDID,
          claimIssuer := [d], acceptedBy := d })) ∧
    (rejectClaimRequest true cacheClient (some d) requesterDID R =
      .ok (.published [(subscribeToMessagesDefaultTopic requesterDID,
        { id := R, requester := requesterDID, claimIssuer := [d],
          isRejected := true })])) ∧
    (rejectClaimRequest false true (some d) requesterDID R =
      .ok (.mailboxed d
        { id := R, requester := requesterDID, claimIssuer := [d],
          isRejected := true })) := by
  refine ⟨rfl, rfl, rfl, rfl⟩

/-! Child enumeration by event scanning, from `IAM.getSubdomains`
(iam.ts 1047-1060). The scanned event names
(`getFilteredDomainsFromEvent`) are passed in as a list. The source
accumulates `subdomains[nameArray[role.length]] = null` into a plain object
and returns `Object.keys(subdomains)`, an insertion-ordered set; the bare
`return;` inside the loop leaves the whole method with `undefined`, rendered
as `none`. -/

/-- Insertion into the key set of the subdomains object: a repeated key
leaves the object unchanged, a fresh key is appended. -/
def insertKeyOnce (acc : List String) (key : String) : List String :=
  if key ∈ acc then acc else acc ++ [key]

/-- The loop of `getSubdomains` over the scanned names: abort with `none`
as soon as a name has no more dot-separated segments than the parent,
otherwise record the segment at index `roleLength` of the reversed name. -/
def getSubdomainsGo (roleLength : Nat) (domains : List String)
    (subdomains : List String) : Option (List String) :=
  match domains with
  | [] => some subdomains
  | name :: rest =>
    let nameArray := (splitOnDot name).reverse
    if nameArray.length ≤ roleLength then none
    else
      getSubdomainsGo roleLength rest
        (insertKeyOnce subdomains (nameArray.getD roleLength ""))

/-- Shallow embedding of `IAM.getSubdomains` given the scanned event names:
`role = domain.split(".")`, then the loop above starting from the empty key
set. -/
def getSubdomains (domains : List String) (domain : String) :
    Option (List String) :=
  let role := splitOnDot domain
  getSubdomainsGo role.length domains []

/-- The label a scanned name contributes: the segment at index `roleLength`
of the reversed segment list, which is its ancestor label one level below
the parent domain. -/
def firstLevelLabel (roleLength : Nat) (name : String) : String :=
  ((splitOnDot name).reverse).getD roleLength ""

lemma mem_insertKeyOnce {s key : String} {acc : List String}
    (h : s ∈ insertKeyOnce acc key) : s ∈ acc ∨ s = key := by
  by_cases hk : key ∈ acc
  · exact .inl (by simpa [insertKeyOnce, hk] using h)
  · simpa [insertKeyOnce, hk] using h

lemma insertKeyOnce_nodup {acc : List String} (key : String)
    (h : acc.Nodup) : (insertKeyOnce acc key).Nodup := by
  by_cases hk : key ∈ acc
  · simpa [insertKeyOnce, hk] using h
  · simp [insertKeyOnce, hk, List.nodup_append, h]

lemma getSubdomainsGo_nodup (roleLength : Nat) (domains : List String)
    (subdomains l : List String) (hacc : subdomains.Nodup)
    (h : getSubdomainsGo roleLength domains subdomains = some l) :
    l.Nodup := by
  induction domains generalizing subdomains with
  | nil =>
    simp only [getSubdomainsGo, Option.some_inj] at h
    exact h ▸ hacc
  | cons name rest ih =>
    simp only [getSubdomainsGo] at h
    split at h
    · exact Option.noConfusion h
    · exact ih _ (insertKeyOnce_nodup _ hacc) h

lemma getSubdomainsGo_mem (roleLength : Nat) (domains : List String)
    (subdomains l : List String)
    (h : getSubdomainsGo roleLength domains subdomains = some l) :
    ∀ s ∈ l, s ∈ subdomains ∨
      ∃ name ∈ domains, s = firstLevelLabel roleLength name := by
  induction domains generalizing subdomains with
  | nil =>
    simp only [getSubdomainsGo, Option.some_inj] at h
    intro s hs
    exact .inl (h ▸ hs)
  | cons name rest ih =>
    simp only [getSubdomainsGo] at h
    split at h
    · exact Option.noConfusion h
    · intro s hs
      rcases ih _ h s hs with hacc | ⟨n, hn', he⟩
      · rcases mem_insertKeyOnce hacc with hacc' | he
        · exact .inl hacc'
        · exact .inr ⟨name, by simp, he⟩
      · exact .inr ⟨n, by simp [hn'], he⟩

/-- Counterexample to claim C8: with subdomain-created events `a.org`,
`b.org` and `roles.a.org`, scanning under `org` yields the keys `a` and `b`
only — the deeper event `roles.a.org` contributes its depth-one label `a`,
not `roles`, so the claimed set containing `roles` is not produced. -/
theorem getSubdomains_example_no_roles_key :
    getSubdomains ["a.org", "b.org", "roles.a.org"] "org" = some ["a", "b"] ∧
    "roles" ∉ (["a", "b"] : List String) := by
  refine ⟨by decide, by decide⟩

/-- Claim C8 as amended. With events `a.org`, `b.org` and `roles.a.org`,
enumeration under `org` yields exactly the keys `a` and `b` (the deeper
event contributes its depth-one ancestor label `a`, deduplicated); in
general every successful enumeration is duplicate-free and every returned
key is the depth-one label of some scanned name. -/
theorem getSubdomains_unique_first_level :
    getSubdomains ["a.org", "b.org", "roles.a.org"] "org" = some ["a", "b"] ∧
    (∀ domains domain l, getSubdomains domains domain = some l →
      l.Nodup ∧ ∀ s ∈ l, ∃ name ∈ domains,
        s = firstLevelLabel (splitOnDot domain).length name) := by
  refine ⟨by decide, ?_⟩
  intro domains domain l h
  refine ⟨getSubdomainsGo_nodup _ _ _ _ (by simp) h, ?_⟩
  intro s hs
  rcases getSubdomainsGo_mem _ _ _ _ h s hs with hacc | hex
  · simp at hacc
  · exact hex

/-- Witness for claim C8 (amended part): the enumeration result for the
example events is duplicate-free. -/
theorem getSubdomains_unique_first_level_witness :
    (["a", "b"] : List String).Nodup :=
  ((getSubdomains_unique_first_level).2
    ["a.org", "b.org", "roles.a.org"] "org" ["a", "b"] (by decide)).1

/-- The cache fields of `SignerService` plus a counter of signing requests
issued to the wallet. -/
structure SignerCacheState where
  publicKey : Option String
  identityToken : Option String
  signRequests : Nat
deriving DecidableEq, Repr

/-- Session environment of the derivation: execution environment, the value
`localStorage.getItem(PUBLIC_KEY)` that `init` reads in a browser, and the
pair that a fresh derivation would produce for this session. -/
structure SignerSessionEnv where
  isBrowser : Bool
  localStorageKey : Option String
  derivedPublicKey : String
  derivedIdentityToken : String
deriving DecidableEq, Repr

/-- Shallow embedding of `_calculatePubKeyAndIdentityToken`: one signing
request, then both cache fields are set to the derived pair. -/
def calculatePubKeyAndIdentityToken (env : SignerSessionEnv)
    (st : SignerCacheState) : SignerCacheState :=
  { publicKey := some env.derivedPublicKey,
    identityToken := some env.derivedIdentityToken,
    signRequests := st.signRequests + 1 }

/-- Shallow embedding of `publicKeyAndIdentityToken`: derive only when one
of the two cache fields is unset, then return both fields. -/
def publicKeyAndIdentityToken (env : SignerSessionEnv)
    (st : SignerCacheState) : (String × String) × SignerCacheState :=
  let st' :=
    if st.publicKey.isNone || st.identityToken.isNone then
      calculatePubKeyAndIdentityToken env st
    else st
  ((st'.publicKey.getD "", st'.identityToken.getD ""), st')

/-- Effect of `SignerService.init` on the cache fields: in a browser the
public key is re-read from local storage; the identity token is never
touched. -/
def initCacheFields (env : SignerSessionEnv)
    (st : SignerCacheState) : SignerCacheState :=
  if env.isBrowser then { st with publicKey := env.localStorageKey } else st

/-- The reconnection handler registered by `initEventHandlers` for account
change, network change and session update: `closeConnection` (which leaves
both cache fields alone) followed by `init`. -/
def accChangedHandler (env : SignerSessionEnv)
    (st : SignerCacheState) : SignerCacheState :=
  initCacheFields env st

/-- Cache state with a previously derived pair, used in the concrete
reconnection scenarios below. -/
def cachedPairState : SignerCacheState :=
  { publicKey := some "0xPubOld", identityToken := some "tokenOld",
    signRequests := 1 }

/-- Non-browser session whose fresh derivation would produce a new pair. -/
def reconnectSessionEnv : SignerSessionEnv :=
  { isBrowser := false, localStorageKey := none,
    derivedPublicKey := "0xPubNew", derivedIdentityToken := "tokenNew" }

/-- Counterexample to claim C9: after a reconnection event the cache is not
cleared — the handler leaves the cached pair in place (here, in a
non-browser session), and the next call returns the old pair with no new
signing request, instead of recomputing it. -/
theorem identity_cache_survives_reconnect :
    accChangedHandler reconnectSessionEnv cachedPairState = cachedPairState ∧
    publicKeyAndIdentityToken reconnectSessionEnv
        (accChangedHandler reconnectSessionEnv cachedPairState) =
      (("0xPubOld", "tokenOld"), cachedPairState) ∧
    (publicKeyAndIdentityToken reconnectSessionEnv
        (accChangedHandler reconnectSessionEnv cachedPairState)).2.signRequests
      = cachedPairState.signRequests := by
  refine ⟨rfl, rfl, rfl⟩

/-- Claim C9 as amended. The pair is derived at most once: a second call on
the state produced by any call returns the identical pair and state, hence
no new signing request; the reconnection handler never clears the cached
identity token, and outside the browser it leaves the cache untouched
entirely, so a call after reconnection still returns the previously cached
pair without recomputation. -/
theorem identity_token_cached_once (env : SignerSessionEnv)
    (st : SignerCacheState) :
    (publicKeyAndIdentityToken env (publicKeyAndIdentityToken env st).2 =
      publicKeyAndIdentityToken env st) ∧
    ((accChangedHandler env st).identityToken = st.identityToken) ∧
    (∀ pk tok, st.publicKey = some pk → st.identityToken = some tok →
      env.isBrowser = false →
      publicKeyAndIdentityToken env (accChangedHandler env st) =
        ((pk, tok), st)) := by
  obtain ⟨pk?, tok?, n⟩ := st
  refine ⟨?_, ?_, ?_⟩
  · cases pk? <;> cases tok? <;>
      simp [publicKeyAndIdentityToken, calculatePubKeyAndIdentityToken]
  · cases hb : env.isBrowser <;>
      simp [accChangedHandler, initCacheFields, hb]
  · intro pk tok hpk htok hb
    simp only at hpk htok
    subst hpk; subst htok
    simp [accChangedHandler, initCacheFields, hb,
      publicKeyAndIdentityToken]

/-- Witness for claim C9 (amended): in the concrete non-browser session, a
call after reconnection returns the old cached pair and the old state. -/
theorem identity_token_cached_once_witness :
    publicKeyAndIdentityToken reconnectSessionEnv
        (accChangedHandler reconnectSessionEnv cachedPairState) =
      (("0xPubOld", "tokenOld"), cachedPairState) :=
  (identity_token_cached_once reconnectSessionEnv cachedPairState).2.2
    "0xPubOld" "tokenOld" rfl rfl rfl

end IamClientLib
